import Mathlib

/-!
Shallow embedding of `src/commands/exportSales.go` (package `cmd` of vend-cli).

Modelling conventions:
* Go pointer fields (`*string`, `*float64`, …) are modelled as `Option`;
  dereferencing a nil pointer — a Go runtime panic — is modelled by
  propagating `none` through `Option.bind`.
* Go `float64` monetary values are idealised as exact rationals `ℚ`, and
  `strconv.FormatFloat(x, 'f', -1, 64)` (shortest plain-decimal rendering)
  is modelled by `fmtF`.
* Go byte-slicing of strings is modelled by `List.take`/`List.drop` on the
  string's character list (all the sliced data is ASCII).
* The functions of the external collaborators (the govend API client, the
  Go standard library `time`, `fmt` and `encoding/csv` packages) are
  modelled from the spec where their behaviour matters to a claim; the
  local-timestamp formatter is kept as an explicit function parameter `f`.
-/

/-- Pads a digit string on the left with zeros to width `k`. -/
def padZeros (s : String) (k : ℕ) : String :=
  String.mk (List.replicate (k - s.data.length) '0') ++ s

/-- Models `strconv.FormatFloat(x, 'f', -1, 64)`: the shortest decimal string
(no exponent, no trailing zeros) denoting the value.  Idealised to exact
rationals; every Go `float64` value printed by the program is a dyadic
rational whose shortest decimal expansion has at most 17 fractional digits,
so the search bound 18 covers them. -/
def fmtF (q : ℚ) : String :=
  match (List.range 18).find? (fun k => (q * (10 : ℚ) ^ k).den == 1) with
  | some k =>
      if k = 0 then toString q.num
      else
        let n := (q * (10 : ℚ) ^ k).num
        let m := n.natAbs
        (if n < 0 then "-" else "") ++ toString (m / 10 ^ k) ++ "." ++
          padZeros (toString (m % 10 ^ k)) k
  | none => toString q

/-- Models `fmt.Sprintf("%q", s)` for printable-ASCII strings: the string is
wrapped in double quotes, with backslash and double quote escaped. -/
def goQuote (s : String) : String :=
  String.mk ('"' :: (s.data.flatMap (fun c => if c = '"' ∨ c = '\\' then ['\\', c] else [c])) ++ ['"'])

/-- `vend.Register` (fields used by exportSales.go). -/
structure Register where
  id : Option String := none
  name : Option String := none
  deletedAt : Option String := none
  deriving DecidableEq

/-- `vend.User` (fields used by exportSales.go). -/
structure User where
  id : Option String := none
  displayName : Option String := none
  deriving DecidableEq

/-- `vend.Customer` (fields used by exportSales.go). -/
structure Customer where
  id : Option String := none
  firstName : Option String := none
  lastName : Option String := none
  code : Option String := none
  companyName : Option String := none
  deriving DecidableEq

/-- `vend.Product` (fields used by exportSales.go). -/
structure Product where
  id : Option String := none
  name : Option String := none
  variantName : Option String := none
  sku : Option String := none
  deriving DecidableEq

/-- `vend.LineItem` (fields used by exportSales.go). -/
structure LineItem where
  productID : Option String := none
  quantity : Option ℚ := none
  price : Option ℚ := none
  tax : Option ℚ := none
  discount : Option ℚ := none
  loyaltyValue : Option ℚ := none
  discountTotal : Option ℚ := none
  deriving DecidableEq

/-- `vend.Payment` (fields used by exportSales.go). -/
structure Payment where
  name : Option String := none
  amount : Option ℚ := none
  deriving DecidableEq

/-- `vend.Sale` (fields used by exportSales.go).  `lineItems` and `payments`
are pointers to slices in Go, hence `Option (List _)` here. -/
structure Sale where
  deletedAt : Option String := none
  status : Option String := none
  saleDate : Option String := none
  invoiceNumber : Option String := none
  customerID : Option String := none
  note : Option String := none
  lineItems : Option (List LineItem) := none
  totalPrice : Option ℚ := none
  totalTax : Option ℚ := none
  totalLoyalty : Option ℚ := none
  registerID : Option String := none
  userID : Option String := none
  payments : Option (List Payment) := none
  deriving DecidableEq

/-- The customer-resolution loop of `writeReport` (lines 196-219): scan the
customers for `*customer.ID == *sale.CustomerID`; on the first match build
the display name by joining the present first/last names with a space and
take code and company name (blank when absent), then break.  Returns
`(customerName, customerCode, customerCompanyName)`; all blank when no
customer matches or the list is empty. -/
def lookupCustomer (customerID : Option String) : List Customer → Option (String × String × String)
  | [] => some ("", "", "")
  | c :: rest =>
    c.id.bind fun cid =>
    customerID.bind fun sid =>
    if cid = sid then
      some (String.intercalate " " (c.firstName.toList ++ c.lastName.toList),
            c.code.getD "", c.companyName.getD "")
    else lookupCustomer customerID rest

/-- The register-resolution loop of `writeReport` (lines 261-275): on a match
use the register's name with a " (Deleted)" suffix when the register is
deleted, and break; in the else branch of every non-matching iteration the
name is overwritten with the sentinel "<Deleted Register>".  The accumulator
`acc` is the current value of the Go variable `registerName` (initially the
empty string). -/
def lookupRegister (registerID : Option String) : List Register → String → Option String
  | [], acc => some acc
  | r :: rest, _ =>
    registerID.bind fun sid =>
    r.id.bind fun rid =>
    if sid = rid then
      r.name.bind fun nm =>
      some (if r.deletedAt.isSome then nm ++ " (Deleted)" else nm)
    else lookupRegister registerID rest "<Deleted Register>"

/-- The user-resolution loop of `writeReport` (lines 277-285): the condition
`sale.UserID != nil && *sale.UserID == *user.ID` short-circuits, so a nil
`UserID` never dereferences any user and the name stays blank. -/
def lookupUser : Option String → List User → Option String
  | _, [] => some ""
  | none, _ :: _ => some ""
  | some sid, u :: rest =>
    u.id.bind fun uid =>
    if sid = uid then u.displayName
    else lookupUser (some sid) rest

/-- The inner product scan of the summary accumulation loop (lines 234-244):
on the first product with `*product.ID == *lineitem.ProductID`, produce the
"{quantity} X {product name}" fragment and break; no fragment otherwise. -/
def fragScan (productID : Option String) (q : ℚ) : List Product → Option (List String)
  | [] => some []
  | p :: rest =>
    p.id.bind fun pid =>
    productID.bind fun lid =>
    if pid = lid then
      p.name.bind fun nm =>
      some [fmtF q ++ " X " ++ nm]
    else fragScan productID q rest

/-- The summary accumulation loop of `writeReport` (lines 228-245): left fold
over the line items adding `*lineitem.Quantity` and `*lineitem.DiscountTotal`
and collecting the product fragments in order.  Returns
`(totalQuantity, totalDiscount, saleItems)`. -/
def summaryScan (prods : List Product) : List LineItem → ℚ → ℚ → List String → Option (ℚ × ℚ × List String)
  | [], tq, td, items => some (tq, td, items)
  | li :: rest, tq, td, items =>
    li.quantity.bind fun q =>
    li.discountTotal.bind fun d =>
    (fragScan li.productID q prods).bind fun fr =>
    summaryScan prods rest (tq + q) (td + d) (items ++ fr)

/-- The product scan of the line-item row loop (lines 328-333): this loop has
no break, so the variant name and SKU of the LAST matching product win; the
accumulators carry the current values (initially blank). -/
def lookupProductVariant (productID : Option String) : List Product → String → String → Option (String × String)
  | [], nm, sk => some (nm, sk)
  | p :: rest, nm, sk =>
    p.id.bind fun pid =>
    productID.bind fun lid =>
    if pid = lid then
      p.variantName.bind fun vn =>
      p.sku.bind fun sk2 =>
      lookupProductVariant productID rest vn sk2
    else lookupProductVariant productID rest nm sk

/-- Sequential `Option`-propagating map, modelling a Go loop that may panic
partway: the whole iteration is `none` as soon as one element fails. -/
def optMapList {α β : Type} (f : α → Option β) : List α → Option (List β)
  | [] => some []
  | a :: as =>
    (f a).bind fun b =>
    (optMapList f as).bind fun bs =>
    some (b :: bs)

/-- The first 19 characters of the formatted local timestamp: models
`dateTimeInLocation.String()[0:19]` (line 183). -/
def dtChars (f : String → String → String) (sd tz : String) : List Char :=
  (f sd tz).data.take 19

/-- Models `dateStr = dateTimeStr[0:10]` (line 187). -/
def dateStrOf (f : String → String → String) (sd tz : String) : String :=
  String.mk ((dtChars f sd tz).take 10)

/-- Models `timeStr = dateTimeStr[10:19]` (line 188). -/
def timeStrOf (f : String → String → String) (sd tz : String) : String :=
  String.mk (((dtChars f sd tz).drop 10).take 9)

/-- Models the sale-note quoting (lines 222-225): `fmt.Sprintf("%q", *sale.Note)`
when the note is present, blank otherwise. -/
def noteStrOf : Option String → String
  | some n => goQuote n
  | none => ""

/-- The 22-column summary record of a sale (lines 293-315), in source order.
`cinfo = (customerName, customerCode, customerCompanyName)` and
`acc = (totalQuantity, totalDiscount, saleItems)`. -/
def summaryRow (dateStr timeStr invoiceNumber : String) (cinfo : String × String × String)
    (saleNote : String) (acc : ℚ × ℚ × List String) (tp tt tl : ℚ)
    (regName userName : String) (status : Option String) : List String :=
  [dateStr, timeStr, invoiceNumber, "Sale", cinfo.2.1, cinfo.2.2, cinfo.1, saleNote,
   fmtF acc.1, fmtF tp, fmtF tt, fmtF acc.2.1, fmtF tl, fmtF (tp + tt), "",
   String.intercalate " + " acc.2.2, regName, userName, status.getD "", "", "", ""]

/-- The 22-column line-item record (lines 318-359).  Indices 0-19 are
overwritten per item; indices 20 and 21 keep the blanks of the shared
backing array. -/
def lineRow (prods : List Product) (dateStr timeStr : String) (li : LineItem) : Option (List String) :=
  li.quantity.bind fun q =>
  li.price.bind fun p =>
  li.tax.bind fun t =>
  li.discount.bind fun d =>
  li.loyaltyValue.bind fun l =>
  (lookupProductVariant li.productID prods "" "").bind fun ps =>
  some [dateStr, timeStr, "", "Sale Line", "", "", "", "",
        fmtF q, fmtF p, fmtF t, fmtF d, fmtF l, fmtF ((p + t) * q), "",
        ps.1, "", "", "", ps.2, "", ""]

/-- The 22-column payment record (lines 362-392). -/
def paymentRow (dateStr timeStr : String) (pm : Payment) : Option (List String) :=
  pm.amount.bind fun amt =>
  pm.name.bind fun nm =>
  some [dateStr, timeStr, "", "Payment", "", "", "", "", "", "", "", "", "", "",
        fmtF amt, nm, "", "", "", "", "", ""]

/-- The per-sale body of `writeReport`'s main loop (lines 169-394): deleted
sales and sales with status "OPEN" are skipped (zero records); otherwise one
summary record, then one record per line item, then one record per payment.
`f` is the external timestamp formatter (`vend.ParseVendDT(..).String()`);
the Go slice `[0:19]` panics when the formatted string is shorter than 19
bytes, modelled by the length guard. -/
def saleRows (regs : List Register) (users : List User) (custs : List Customer)
    (prods : List Product) (f : String → String → String) (tz : String)
    (sale : Sale) : Option (List (List String)) :=
  if sale.deletedAt.isSome then some []
  else if sale.status = some "OPEN" then some []
  else
    sale.saleDate.bind fun sd =>
    if (f sd tz).data.length < 19 then none
    else
      (lookupCustomer sale.customerID custs).bind fun cinfo =>
      sale.lineItems.bind fun items =>
      (summaryScan prods items 0 0 []).bind fun acc =>
      sale.totalPrice.bind fun tp =>
      sale.totalTax.bind fun tt =>
      sale.totalLoyalty.bind fun tl =>
      (lookupRegister sale.registerID regs "").bind fun regName =>
      (lookupUser sale.userID users).bind fun userName =>
      sale.payments.bind fun pays =>
      (optMapList (lineRow prods (dateStrOf f sd tz) (timeStrOf f sd tz)) items).bind fun lrs =>
      (optMapList (paymentRow (dateStrOf f sd tz) (timeStrOf f sd tz)) pays).bind fun prs =>
      some (summaryRow (dateStrOf f sd tz) (timeStrOf f sd tz) (sale.invoiceNumber.getD "")
              cinfo (noteStrOf sale.note) acc tp tt tl regName userName sale.status :: (lrs ++ prs))

/-- `writeReport` (lines 161-397): the data records appended to the CSV file,
in input sales order.  `none` models a nil-pointer panic partway through. -/
def writeReport (regs : List Register) (users : List User) (custs : List Customer)
    (prods : List Product) (sales : List Sale) (f : String → String → String)
    (tz : String) : Option (List (List String)) :=
  (optMapList (saleRows regs users custs prods f tz) sales).bind fun rss =>
  some rss.flatten

/-- The fixed header written by `createReport` (lines 131-154): 20 named
columns. -/
def headerLine : List String :=
  ["Sale Date", "Sale Time", "Invoice Number", "Line Type", "Customer Code",
   "Company Name", "Customer Name", "Sale Note", "Quantity", "Price", "Tax",
   "Discount", "Loyalty", "Total", "Paid", "Details", "Register", "User",
   "Status", "Product Sku"]

/-- The external observations `getAllSales` depends on: the two date-parse
results (the `time.Parse` collaborator), the five fetch results of the API
client, and whether `os.Create` succeeds in `createReport`. -/
structure Env where
  dateFromValid : Bool
  dateToValid : Bool
  registers : Except String (List Register)
  users : Except String (List User)
  customers : Except String (List Customer)
  products : Except String (List Product)
  salesResult : Except String (List Sale)
  createOk : Bool

/-- Process-level outcome of `getAllSales`.  `exitNonZero` covers both
`os.Exit(1)`, `log.Fatalf` and a runtime panic (all abnormal, non-zero
terminations); `earlyReturn` is a plain `return` (normal zero exit, no
final message); `completed` is the normal end with the
"Exported %v sales" message count and the file contents. -/
inductive RunResult where
  | exitNonZero (fileCreated : Bool)
  | earlyReturn (fileCreated : Bool)
  | completed (msgCount : ℕ) (fileRows : List (List String))
  deriving DecidableEq

/-- `getAllSales` (lines 52-115): date validation, the five fetches in
order, report creation, then `writeReport` and the final message reporting
`len(sales)`. -/
def getAllSales (env : Env) (f : String → String → String) (tz : String) : RunResult :=
  if env.dateFromValid = false then .exitNonZero false
  else if env.dateToValid = false then .exitNonZero false
  else
    match env.registers with
    | .error _ => .exitNonZero false
    | .ok regs =>
      match env.users with
      | .error _ => .exitNonZero false
      | .ok users =>
        match env.customers with
        | .error _ => .exitNonZero false
        | .ok custs =>
          match env.products with
          | .error _ => .exitNonZero false
          | .ok prods =>
            match env.salesResult with
            | .error _ => .earlyReturn false
            | .ok sales =>
              if env.createOk = false then .exitNonZero false
              else
                match writeReport regs users custs prods sales f tz with
                | none => .exitNonZero true
                | some rows => .completed sales.length (headerLine :: rows)

/-- The number of sales for which at least one record is written to the
file (used to compare against the reported message count). -/
def salesWithRows (regs : List Register) (users : List User) (custs : List Customer)
    (prods : List Product) (f : String → String → String) (tz : String)
    (sales : List Sale) : ℕ :=
  (sales.filter (fun s => !((saleRows regs users custs prods f tz s).getD []).isEmpty)).length

/-- Characters that force a CSV field to be quoted wherever they occur. -/
def isSpecial (c : Char) : Bool := c = ',' || c = '"' || c = '\n' || c = '\r'

/-- Models Go `encoding/csv`'s fieldNeedsQuotes (the writer is an external
standard-library collaborator; spec section 1 places it out of scope, so it
is modelled here from its documented RFC 4180 behaviour): a field is quoted
when it contains a comma, double quote, carriage return or newline, or
starts with a space or tab. -/
def needsQuote : List Char → Bool
  | [] => false
  | c :: cs => (c :: cs).any isSpecial || c = ' ' || c = '\t'

/-- Doubles every double quote (RFC 4180 escaping). -/
def escapeQ : List Char → List Char
  | [] => []
  | c :: cs => if c = '"' then '"' :: '"' :: escapeQ cs else c :: escapeQ cs

/-- Encodes one CSV field, quoting when required. -/
def encodeField (f : List Char) : List Char :=
  if needsQuote f then '"' :: (escapeQ f ++ ['"']) else f

/-- Joins encoded fields with commas. -/
def joinComma : List (List Char) → List Char
  | [] => []
  | [f] => f
  | f :: g :: fs => f ++ ',' :: joinComma (g :: fs)

/-- Encodes one CSV record, terminated by a newline (Go `Writer.UseCRLF`
defaults to false). -/
def encodeRecordCSV (fs : List (List Char)) : List Char :=
  joinComma (fs.map encodeField) ++ ['\n']

/-- Encodes a whole CSV file. -/
def encodeCSV (rows : List (List (List Char))) : List Char :=
  (rows.map encodeRecordCSV).flatten

/-- Parses the body of a quoted field (after the opening quote): a doubled
quote denotes a literal quote, a single quote closes the field.  The flag is
`false` inside the body and `true` right after an undecided quote. -/
def parseQAux : Bool → List Char → Option (List Char × List Char)
  | false, [] => none
  | false, c :: cs =>
    if c = '"' then parseQAux true cs
    else (parseQAux false cs).map (fun p => (c :: p.1, p.2))
  | true, [] => some ([], [])
  | true, c :: cs =>
    if c = '"' then (parseQAux false cs).map (fun p => ('"' :: p.1, p.2))
    else some ([], c :: cs)

/-- Parses a quoted field body from after the opening quote. -/
def parseQBody (cs : List Char) : Option (List Char × List Char) :=
  parseQAux false cs

/-- Parses an unquoted field: everything up to the next comma or newline. -/
def parseUField : List Char → List Char × List Char
  | [] => ([], [])
  | c :: cs =>
    if c = ',' ∨ c = '\n' then ([], c :: cs)
    else
      let p := parseUField cs
      (c :: p.1, p.2)

/-- Parses one CSV field, quoted or not. -/
def parseField (cs : List Char) : Option (List Char × List Char) :=
  match cs with
  | [] => some ([], [])
  | c :: rest => if c = '"' then parseQBody rest else some (parseUField (c :: rest))

/-- Parses the fields of one record up to and including its newline;
`fuel` bounds the number of fields. -/
def parseRecAux : ℕ → List Char → Option (List (List Char) × List Char)
  | 0, _ => none
  | fuel + 1, cs =>
    (parseField cs).bind fun fr =>
    match fr.2 with
    | ',' :: rest2 => (parseRecAux fuel rest2).map (fun p => (fr.1 :: p.1, p.2))
    | '\n' :: rest2 => some ([fr.1], rest2)
    | _ => none

/-- Parses a sequence of newline-terminated records; `fuel` bounds the
number of records. -/
def parseCSVAux : ℕ → List Char → Option (List (List (List Char)))
  | _, [] => some []
  | 0, _ => none
  | fuel + 1, c :: cs =>
    (parseRecAux ((c :: cs).length + 1) (c :: cs)).bind fun p =>
    (parseCSVAux fuel p.2).map (fun rows => p.1 :: rows)

/-- Parses a whole CSV file. -/
def parseCSV (cs : List Char) : Option (List (List (List Char))) :=
  parseCSVAux (cs.length + 1) cs

/-- Encodes a produced report (rows of string fields) as the CSV file bytes. -/
def encodeCSVFile (rows : List (List String)) : List Char :=
  encodeCSV (rows.map (fun r => r.map String.data))

/-- Re-parses a CSV file back into rows of string fields. -/
def parseCSVFile (cs : List Char) : Option (List (List String)) :=
  (parseCSV cs).map (fun rows => rows.map (fun r => r.map String.mk))

/-- A fixed stand-in for the external timestamp formatter
`vend.ParseVendDT(..).String()`, used only by concrete witnesses. -/
def fmt0 : String → String → String := fun _ _ => "2015-07-01 07:03:22 +0000 UTC"

/-- Concrete customer fixture for witnesses. -/
def cust0 : Customer :=
  { id := some "cust1", firstName := some "Jane", lastName := none,
    code := some "C1", companyName := none }

/-- Concrete product fixture for witnesses. -/
def prod0 : Product :=
  { id := some "prod1", name := some "Widget", variantName := some "Widget Large",
    sku := some "SKU1" }

/-- Concrete register fixture for witnesses. -/
def reg0 : Register := { id := some "reg1", name := some "Main", deletedAt := none }

/-- Concrete user fixture for witnesses. -/
def user0 : User := { id := some "user1", displayName := some "Bob" }

/-- Concrete line-item fixture: price 10, tax 1, quantity 2. -/
def li0 : LineItem :=
  { productID := some "prod1", quantity := some 2, price := some 10,
    tax := some 1, discount := some 0, loyaltyValue := some 0,
    discountTotal := some 0 }

/-- Concrete included sale fixture: one line item (price 10, tax 1,
quantity 2) and one payment. -/
def sale0 : Sale :=
  { deletedAt := none, status := some "CLOSED", saleDate := some "2015-07-01T07:03:22Z",
    invoiceNumber := some "INV-1", customerID := some "cust1", note := some "hi",
    lineItems := some [li0],
    totalPrice := some 20, totalTax := some 2, totalLoyalty := some 0,
    registerID := some "reg1", userID := some "user1",
    payments := some [{ name := some "Cash", amount := some 22 }] }

/-- The summary record `writeReport` produces for `sale0`. -/
def srow0 : List String :=
  ["2015-07-01", " 07:03:22", "INV-1", "Sale", "C1", "", "Jane", "\"hi\"",
   "2", "20", "2", "0", "0", "22", "", "2 X Widget", "Main", "Bob", "CLOSED", "", "", ""]

/-- The line-item record `writeReport` produces for `sale0`. -/
def lrow0 : List String :=
  ["2015-07-01", " 07:03:22", "", "Sale Line", "", "", "", "",
   "2", "10", "1", "0", "0", "22", "", "Widget Large", "", "", "", "SKU1", "", ""]

/-- The payment record `writeReport` produces for `sale0`. -/
def prow0 : List String :=
  ["2015-07-01", " 07:03:22", "", "Payment", "", "", "", "", "", "", "", "", "", "",
   "22", "Cash", "", "", "", "", "", ""]

/-- The records `writeReport` produces for `sale0` with the fixtures above. -/
def rows0 : List (List String) := [srow0, lrow0, prow0]

/-- Concrete deleted sale fixture (all other fields absent: a deleted sale
is skipped before any dereference). -/
def saleDel : Sale := { deletedAt := some "2015-08-01T00:00:00Z" }

/-- Concrete included sale with an absent (nil) TotalPrice and every other
dereferenced field present. -/
def saleNoTP : Sale :=
  { deletedAt := none, status := some "CLOSED", saleDate := some "2015-07-01T07:03:22Z",
    customerID := some "cust1", lineItems := some [], totalPrice := none,
    totalTax := some 0, totalLoyalty := some 0, registerID := some "reg1",
    payments := some [] }

/-- Concrete included sale whose nil-checked optional fields (invoice
number, note, status, user ID) are all absent, with no matching customer or
register. -/
def saleBare : Sale :=
  { deletedAt := none, status := none, saleDate := some "2015-07-01T07:03:22Z",
    invoiceNumber := none, customerID := some "nobody", note := none,
    lineItems := some [], totalPrice := some 0, totalTax := some 0,
    totalLoyalty := some 0, registerID := some "nobody", userID := none,
    payments := some [] }

/-- Environment in which every external step succeeds and the single fetched
sale is deleted. -/
def envDel : Env :=
  { dateFromValid := true, dateToValid := true, registers := .ok [], users := .ok [],
    customers := .ok [], products := .ok [], salesResult := .ok [saleDel], createOk := true }

/-- Environment in which the registers fetch fails. -/
def envRegFail : Env :=
  { dateFromValid := true, dateToValid := true, registers := .error "boom",
    users := .ok [], customers := .ok [], products := .ok [],
    salesResult := .ok [], createOk := true }

/-- Environment in which only the sales search fails. -/
def envSalesFail : Env :=
  { dateFromValid := true, dateToValid := true, registers := .ok [], users := .ok [],
    customers := .ok [], products := .ok [], salesResult := .error "boom", createOk := true }

/-- Presence of every field `writeReport` dereferences unconditionally for
an included sale: the sale's date (with a well-formed formatted timestamp),
the numeric totals, the line items with their numeric fields and product
reference, the payments with amount and name, the customer/register
references, and the identifier and looked-up fields of the reference lists.
The nil-CHECKED fields — invoice number, note, status, user ID, and the
customer's name/code/company fields — are deliberately NOT required. -/
def SaleComplete (custs : List Customer) (regs : List Register) (users : List User)
    (prods : List Product) (f : String → String → String) (tz : String) (sale : Sale) : Prop :=
  (∃ sd, sale.saleDate = some sd ∧ 19 ≤ (f sd tz).data.length) ∧
  sale.customerID.isSome ∧
  (∀ c ∈ custs, c.id.isSome) ∧
  (∃ items, sale.lineItems = some items ∧ ∀ li ∈ items,
    li.quantity.isSome ∧ li.price.isSome ∧ li.tax.isSome ∧ li.discount.isSome ∧
    li.loyaltyValue.isSome ∧ li.discountTotal.isSome ∧ li.productID.isSome) ∧
  (∀ p ∈ prods, p.id.isSome ∧ p.name.isSome ∧ p.variantName.isSome ∧ p.sku.isSome) ∧
  sale.totalPrice.isSome ∧ sale.totalTax.isSome ∧ sale.totalLoyalty.isSome ∧
  sale.registerID.isSome ∧
  (∀ r ∈ regs, r.id.isSome ∧ r.name.isSome) ∧
  (∀ u ∈ users, u.id.isSome ∧ u.displayName.isSome) ∧
  (∃ pays, sale.payments = some pays ∧ ∀ pm ∈ pays, pm.amount.isSome ∧ pm.name.isSome)

example : fmtF ((10 + 1) * 2 : ℚ) = "22" := by with_unfolding_all decide
example : fmtF (21 / 2 : ℚ) = "10.5" := by with_unfolding_all decide
example : fmtF (-1 / 2 : ℚ) = "-0.5" := by with_unfolding_all decide
example : fmtF (0 : ℚ) = "0" := by with_unfolding_all decide
example : fmtF (205 / 100 : ℚ) = "2.05" := by with_unfolding_all decide

theorem optMapList_eq_some {α β : Type} {f : α → Option β} :
    ∀ {l : List α} {bs : List β}, optMapList f l = some bs →
      bs.length = l.length ∧
      ∀ i a, l.get? i = some a → ∃ b, bs.get? i = some b ∧ f a = some b := by
  intro l
  induction l with
  | nil =>
    intro bs h
    simp only [optMapList, Option.some.injEq] at h
    subst h
    exact ⟨rfl, by intro i a ha; simp at ha⟩
  | cons x xs ih =>
    intro bs h
    simp only [optMapList] at h
    rw [Option.bind_eq_some] at h
    obtain ⟨b, hb, h⟩ := h
    rw [Option.bind_eq_some] at h
    obtain ⟨bs', hbs, h⟩ := h
    rw [Option.some.injEq] at h
    subst h
    obtain ⟨hlen, hidx⟩ := ih hbs
    refine ⟨by simp [hlen], ?_⟩
    intro i a ha
    match i with
    | 0 =>
      simp only [List.get?] at ha ⊢
      rw [Option.some.injEq] at ha
      subst ha
      exact ⟨b, rfl, hb⟩
    | i + 1 =>
      simp only [List.get?] at ha ⊢
      exact hidx i a ha

theorem optMapList_mem {α β : Type} {f : α → Option β} :
    ∀ {l : List α} {bs : List β}, optMapList f l = some bs →
      ∀ b ∈ bs, ∃ a ∈ l, f a = some b := by
  intro l
  induction l with
  | nil =>
    intro bs h
    simp only [optMapList, Option.some.injEq] at h
    subst h
    simp
  | cons x xs ih =>
    intro bs h
    simp only [optMapList] at h
    rw [Option.bind_eq_some] at h
    obtain ⟨b, hb, h⟩ := h
    rw [Option.bind_eq_some] at h
    obtain ⟨bs', hbs, h⟩ := h
    rw [Option.some.injEq] at h
    subst h
    intro b' hb'
    rcases List.mem_cons.mp hb' with h1 | h1
    · subst h1; exact ⟨x, List.mem_cons_self x xs, hb⟩
    · obtain ⟨a, ha, hfa⟩ := ih hbs b' h1
      exact ⟨a, List.mem_cons_of_mem x ha, hfa⟩

theorem optMapList_isSome {α β : Type} {f : α → Option β} :
    ∀ {l : List α}, (∀ a ∈ l, (f a).isSome) → (optMapList f l).isSome := by
  intro l
  induction l with
  | nil => intro _; simp [optMapList]
  | cons x xs ih =>
    intro h
    obtain ⟨b, hb⟩ := Option.isSome_iff_exists.mp (h x (List.mem_cons_self x xs))
    obtain ⟨bs, hbs⟩ := Option.isSome_iff_exists.mp (ih (fun a ha => h a (List.mem_cons_of_mem x ha)))
    simp [optMapList, hb, hbs]

theorem lineRow_eq_some {prods : List Product} {ds ts : String} {li : LineItem} {r : List String}
    (h : lineRow prods ds ts li = some r) :
    ∃ q p t d l ps, li.quantity = some q ∧ li.price = some p ∧ li.tax = some t ∧
      li.discount = some d ∧ li.loyaltyValue = some l ∧
      lookupProductVariant li.productID prods "" "" = some ps ∧
      r = [ds, ts, "", "Sale Line", "", "", "", "",
           fmtF q, fmtF p, fmtF t, fmtF d, fmtF l, fmtF ((p + t) * q), "",
           ps.1, "", "", "", ps.2, "", ""] := by
  unfold lineRow at h
  rw [Option.bind_eq_some] at h
  obtain ⟨q, hq, h⟩ := h
  rw [Option.bind_eq_some] at h
  obtain ⟨p, hp, h⟩ := h
  rw [Option.bind_eq_some] at h
  obtain ⟨t, ht, h⟩ := h
  rw [Option.bind_eq_some] at h
  obtain ⟨d, hd, h⟩ := h
  rw [Option.bind_eq_some] at h
  obtain ⟨l, hl, h⟩ := h
  rw [Option.bind_eq_some] at h
  obtain ⟨ps, hps, h⟩ := h
  rw [Option.some.injEq] at h
  exact ⟨q, p, t, d, l, ps, hq, hp, ht, hd, hl, hps, h.symm⟩

theorem paymentRow_eq_some {ds ts : String} {pm : Payment} {r : List String}
    (h : paymentRow ds ts pm = some r) :
    ∃ amt nm, pm.amount = some amt ∧ pm.name = some nm ∧
      r = [ds, ts, "", "Payment", "", "", "", "", "", "", "", "", "", "",
           fmtF amt, nm, "", "", "", "", "", ""] := by
  unfold paymentRow at h
  rw [Option.bind_eq_some] at h
  obtain ⟨amt, hamt, h⟩ := h
  rw [Option.bind_eq_some] at h
  obtain ⟨nm, hnm, h⟩ := h
  rw [Option.some.injEq] at h
  exact ⟨amt, nm, hamt, hnm, h.symm⟩

/-- Destructuring of a successful, non-skipped `saleRows` evaluation into
its constituents, exactly as the source computes them. -/
theorem saleRows_eq_some {regs : List Register} {users : List User} {custs : List Customer}
    {prods : List Product} {f : String → String → String} {tz : String} {sale : Sale}
    {rs : List (List String)}
    (hdel : sale.deletedAt = none) (hst : ¬ sale.status = some "OPEN")
    (h : saleRows regs users custs prods f tz sale = some rs) :
    ∃ sd cinfo items acc tp tt tl regName userName pays lrs prs,
      sale.saleDate = some sd ∧
      ¬ (f sd tz).data.length < 19 ∧
      lookupCustomer sale.customerID custs = some cinfo ∧
      sale.lineItems = some items ∧
      summaryScan prods items 0 0 [] = some acc ∧
      sale.totalPrice = some tp ∧ sale.totalTax = some tt ∧ sale.totalLoyalty = some tl ∧
      lookupRegister sale.registerID regs "" = some regName ∧
      lookupUser sale.userID users = some userName ∧
      sale.payments = some pays ∧
      optMapList (lineRow prods (dateStrOf f sd tz) (timeStrOf f sd tz)) items = some lrs ∧
      optMapList (paymentRow (dateStrOf f sd tz) (timeStrOf f sd tz)) pays = some prs ∧
      rs = summaryRow (dateStrOf f sd tz) (timeStrOf f sd tz) (sale.invoiceNumber.getD "")
             cinfo (noteStrOf sale.note) acc tp tt tl regName userName sale.status :: (lrs ++ prs) := by
  unfold saleRows at h
  rw [hdel] at h
  simp only [Option.isSome_none, Bool.false_eq_true, if_false, if_neg hst] at h
  rw [Option.bind_eq_some] at h
  obtain ⟨sd, hsd, h⟩ := h
  by_cases hlen : (f sd tz).data.length < 19
  · rw [if_pos hlen] at h
    exact absurd h (by simp)
  · rw [if_neg hlen] at h
    rw [Option.bind_eq_some] at h
    obtain ⟨cinfo, hcinfo, h⟩ := h
    rw [Option.bind_eq_some] at h
    obtain ⟨items, hitems, h⟩ := h
    rw [Option.bind_eq_some] at h
    obtain ⟨acc, hacc, h⟩ := h
    rw [Option.bind_eq_some] at h
    obtain ⟨tp, htp, h⟩ := h
    rw [Option.bind_eq_some] at h
    obtain ⟨tt, htt, h⟩ := h
    rw [Option.bind_eq_some] at h
    obtain ⟨tl, htl, h⟩ := h
    rw [Option.bind_eq_some] at h
    obtain ⟨regName, hreg, h⟩ := h
    rw [Option.bind_eq_some] at h
    obtain ⟨userName, huser, h⟩ := h
    rw [Option.bind_eq_some] at h
    obtain ⟨pays, hpays, h⟩ := h
    rw [Option.bind_eq_some] at h
    obtain ⟨lrs, hlrs, h⟩ := h
    rw [Option.bind_eq_some] at h
    obtain ⟨prs, hprs, h⟩ := h
    rw [Option.some.injEq] at h
    exact ⟨sd, cinfo, items, acc, tp, tt, tl, regName, userName, pays, lrs, prs,
      hsd, hlen, hcinfo, hitems, hacc, htp, htt, htl, hreg, huser, hpays, hlrs, hprs, h.symm⟩

theorem writeReport_eq_some {regs : List Register} {users : List User} {custs : List Customer}
    {prods : List Product} {sales : List Sale} {f : String → String → String} {tz : String}
    {rows : List (List String)}
    (h : writeReport regs users custs prods sales f tz = some rows) :
    ∃ rss, optMapList (saleRows regs users custs prods f tz) sales = some rss ∧
      rows = rss.flatten := by
  unfold writeReport at h
  rw [Option.bind_eq_some] at h
  obtain ⟨rss, hrss, h⟩ := h
  rw [Option.some.injEq] at h
  exact ⟨rss, hrss, h.symm⟩

/-- A deleted sale, or one with status "OPEN", contributes no records. -/
theorem saleRows_skipped {regs : List Register} {users : List User} {custs : List Customer}
    {prods : List Product} {f : String → String → String} {tz : String} {sale : Sale}
    (h : (∃ d, sale.deletedAt = some d) ∨ sale.status = some "OPEN") :
    saleRows regs users custs prods f tz sale = some [] := by
  unfold saleRows
  rcases h with ⟨d, hd⟩ | hs
  · rw [hd]; simp
  · rcases hdel : sale.deletedAt with _ | d
    · simp only [Option.isSome_none, Bool.false_eq_true, if_false, if_pos hs]
    · simp


/-- C2: for every sale that is not deleted and whose status is not "OPEN",
`writeReport` emits exactly `1 + len(lineItems) + len(payments)` records for
that sale — one summary record, then one record per line item in line-item
order, then one record per payment in payment order — and the per-sale
blocks appear in the output in input sales order (the output is the
concatenation of the per-sale blocks, indexed like the input list). -/
theorem C2_rows_per_sale {regs : List Register} {users : List User} {custs : List Customer}
    {prods : List Product} {sales : List Sale} {f : String → String → String} {tz : String}
    {rows : List (List String)}
    (h : writeReport regs users custs prods sales f tz = some rows) :
    ∃ perSale : List (List (List String)),
      perSale.length = sales.length ∧ rows = perSale.flatten ∧
      ∀ i sale, sales.get? i = some sale →
        ∃ rs, perSale.get? i = some rs ∧
          saleRows regs users custs prods f tz sale = some rs ∧
          (sale.deletedAt = none → ¬ sale.status = some "OPEN" →
            ∀ items pays, sale.lineItems = some items → sale.payments = some pays →
              rs.length = 1 + items.length + pays.length ∧
              ∃ s0 lrs prs ds ts,
                rs = s0 :: (lrs ++ prs) ∧
                optMapList (lineRow prods ds ts) items = some lrs ∧
                optMapList (paymentRow ds ts) pays = some prs ∧
                lrs.length = items.length ∧ prs.length = pays.length ∧
                s0.get? 3 = some "Sale" ∧
                (∀ r ∈ lrs, r.get? 3 = some "Sale Line") ∧
                (∀ r ∈ prs, r.get? 3 = some "Payment")) := by
  obtain ⟨rss, hrss, hflat⟩ := writeReport_eq_some h
  obtain ⟨hlen, hidx⟩ := optMapList_eq_some hrss
  refine ⟨rss, hlen, hflat, ?_⟩
  intro i sale hi
  obtain ⟨rs, hrs, hsale⟩ := hidx i sale hi
  refine ⟨rs, hrs, hsale, ?_⟩
  intro hdel hst items pays hitems hpays
  obtain ⟨sd, cinfo, items0, acc, tp, tt, tl, rn, un, pays0, lrs, prs, hsd, hlen19,
    hcinfo, hitems0, hacc, htp, htt, htl, hreg, huser, hpays0, hlrs, hprs, hrs_eq⟩ :=
    saleRows_eq_some hdel hst hsale
  rw [hitems, Option.some.injEq] at hitems0
  subst hitems0
  rw [hpays, Option.some.injEq] at hpays0
  subst hpays0
  have hlrs_len := (optMapList_eq_some hlrs).1
  have hprs_len := (optMapList_eq_some hprs).1
  constructor
  · rw [hrs_eq]
    simp only [List.length_cons, List.length_append, hlrs_len, hprs_len]
    omega
  · refine ⟨_, lrs, prs, dateStrOf f sd tz, timeStrOf f sd tz, hrs_eq, hlrs, hprs,
      hlrs_len, hprs_len, rfl, ?_, ?_⟩
    · intro r hr
      obtain ⟨a, _, ha⟩ := optMapList_mem hlrs r hr
      obtain ⟨q, p, t, d, l, ps, _, _, _, _, _, _, hr_eq⟩ := lineRow_eq_some ha
      rw [hr_eq]
      rfl
    · intro r hr
      obtain ⟨a, _, ha⟩ := optMapList_mem hprs r hr
      obtain ⟨amt, nm, _, _, hr_eq⟩ := paymentRow_eq_some ha
      rw [hr_eq]
      rfl

/-- C2 witness: the theorem instantiated on the concrete fixtures — one
included sale with one line item and one payment, three records emitted. -/
theorem C2_rows_per_sale_witness :
    writeReport [reg0] [user0] [cust0] [prod0] [sale0] fmt0 "UTC" = some rows0 ∧
    ∃ perSale : List (List (List String)),
      perSale.length = [sale0].length ∧ rows0 = perSale.flatten ∧
      ∀ i sale, [sale0].get? i = some sale →
        ∃ rs, perSale.get? i = some rs ∧
          saleRows [reg0] [user0] [cust0] [prod0] fmt0 "UTC" sale = some rs ∧
          (sale.deletedAt = none → ¬ sale.status = some "OPEN" →
            ∀ items pays, sale.lineItems = some items → sale.payments = some pays →
              rs.length = 1 + items.length + pays.length ∧
              ∃ s0 lrs prs ds ts,
                rs = s0 :: (lrs ++ prs) ∧
                optMapList (lineRow [prod0] ds ts) items = some lrs ∧
                optMapList (paymentRow ds ts) pays = some prs ∧
                lrs.length = items.length ∧ prs.length = pays.length ∧
                s0.get? 3 = some "Sale" ∧
                (∀ r ∈ lrs, r.get? 3 = some "Sale Line") ∧
                (∀ r ∈ prs, r.get? 3 = some "Payment")) :=
  ⟨by with_unfolding_all decide, C2_rows_per_sale (by with_unfolding_all decide)⟩

/-- C3: for every sale whose DeletedAt field is set, or whose status equals
"OPEN", `writeReport` emits zero records for that sale. -/
theorem C3_excluded_sales {regs : List Register} {users : List User} {custs : List Customer}
    {prods : List Product} {f : String → String → String} {tz : String} {sale : Sale}
    (h : (∃ d, sale.deletedAt = some d) ∨ sale.status = some "OPEN") :
    saleRows regs users custs prods f tz sale = some [] ∧
    writeReport regs users custs prods [sale] f tz = some [] := by
  have h1 : saleRows regs users custs prods f tz sale = some [] := saleRows_skipped h
  exact ⟨h1, by simp [writeReport, optMapList, h1]⟩

/-- C3 witness: a concrete deleted sale emits zero records. -/
theorem C3_excluded_sales_witness :
    ((∃ d, saleDel.deletedAt = some d) ∨ saleDel.status = some "OPEN") ∧
    saleRows [] [] [] [] fmt0 "UTC" saleDel = some [] ∧
    writeReport [] [] [] [] [saleDel] fmt0 "UTC" = some [] :=
  ⟨Or.inl ⟨"2015-08-01T00:00:00Z", rfl⟩,
   C3_excluded_sales (Or.inl ⟨"2015-08-01T00:00:00Z", rfl⟩)⟩

/-- C4: with valid dates, a fetch failure for registers, users, customers or
products, or a report-file-creation failure, terminates the process fatally
(non-zero exit, no file in the fetch/create cases); a sales-search failure
instead makes `getAllSales` return early and normally (no explicit exit
call), without creating or writing any file. -/
theorem C4_error_paths (env : Env) (f : String → String → String) (tz : String)
    (hf : env.dateFromValid = true) (ht : env.dateToValid = true) :
    ((∃ e, env.registers = .error e) → getAllSales env f tz = .exitNonZero false) ∧
    (∀ regs, env.registers = .ok regs → (∃ e, env.users = .error e) →
      getAllSales env f tz = .exitNonZero false) ∧
    (∀ regs users, env.registers = .ok regs → env.users = .ok users →
      (∃ e, env.customers = .error e) → getAllSales env f tz = .exitNonZero false) ∧
    (∀ regs users custs, env.registers = .ok regs → env.users = .ok users →
      env.customers = .ok custs → (∃ e, env.products = .error e) →
      getAllSales env f tz = .exitNonZero false) ∧
    (∀ regs users custs prods sales, env.registers = .ok regs → env.users = .ok users →
      env.customers = .ok custs → env.products = .ok prods → env.salesResult = .ok sales →
      env.createOk = false → getAllSales env f tz = .exitNonZero false) ∧
    (∀ regs users custs prods, env.registers = .ok regs → env.users = .ok users →
      env.customers = .ok custs → env.products = .ok prods →
      (∃ e, env.salesResult = .error e) → getAllSales env f tz = .earlyReturn false) := by
  refine ⟨?_, ?_, ?_, ?_, ?_, ?_⟩
  · rintro ⟨e, he⟩
    simp [getAllSales, hf, ht, he]
  · rintro regs hr ⟨e, he⟩
    simp [getAllSales, hf, ht, hr, he]
  · rintro regs users hr hu ⟨e, he⟩
    simp [getAllSales, hf, ht, hr, hu, he]
  · rintro regs users custs hr hu hc ⟨e, he⟩
    simp [getAllSales, hf, ht, hr, hu, hc, he]
  · intro regs users custs prods sales hr hu hc hp hs hcr
    simp [getAllSales, hf, ht, hr, hu, hc, hp, hs, hcr]
  · rintro regs users custs prods hr hu hc hp ⟨e, he⟩
    simp [getAllSales, hf, ht, hr, hu, hc, hp, he]

/-- C4 witness: a concrete registers-fetch failure exits non-zero with no
file, and a concrete sales-search failure returns early with no file. -/
theorem C4_error_paths_witness :
    getAllSales envRegFail fmt0 "UTC" = .exitNonZero false ∧
    getAllSales envSalesFail fmt0 "UTC" = .earlyReturn false :=
  ⟨(C4_error_paths envRegFail fmt0 "UTC" rfl rfl).1 ⟨"boom", rfl⟩,
   (C4_error_paths envSalesFail fmt0 "UTC" rfl rfl).2.2.2.2.2 [] [] [] [] rfl rfl rfl rfl
     ⟨"boom", rfl⟩⟩

/-- C6 counterexample: on a successful run over a single DELETED sale the
final message reports 1 sale exported, yet the number of sales for which
any row was written to the file is 0 — the reported count is `len(sales)`,
not the number of sales with rows. -/
theorem C6_count_counterexample :
    getAllSales envDel fmt0 "UTC" = .completed 1 [headerLine] ∧
    salesWithRows [] [] [] [] fmt0 "UTC" [saleDel] = 0 ∧ (1 : ℕ) ≠ 0 := by
  refine ⟨?_, ?_, by decide⟩ <;> with_unfolding_all decide

/-- C6 amended: on a successful run (valid dates, all fetches and the file
creation succeed, and `writeReport` does not panic) the process finishes
normally (exit zero) and the final message reports `len(sales)` — the count
of fetched sales, which includes skipped (deleted or "OPEN") sales. -/
theorem C6_success_reports_fetched_count (env : Env) (f : String → String → String)
    (tz : String) (regs : List Register) (users : List User) (custs : List Customer)
    (prods : List Product) (sales : List Sale) (rows : List (List String))
    (hf : env.dateFromValid = true) (ht : env.dateToValid = true)
    (hr : env.registers = .ok regs) (hu : env.users = .ok users)
    (hc : env.customers = .ok custs) (hp : env.products = .ok prods)
    (hs : env.salesResult = .ok sales) (hcr : env.createOk = true)
    (hw : writeReport regs users custs prods sales f tz = some rows) :
    getAllSales env f tz = .completed sales.length (headerLine :: rows) := by
  simp [getAllSales, hf, ht, hr, hu, hc, hp, hs, hcr, hw]

/-- C6 witness: the amended theorem instantiated on the deleted-sale
environment: message count 1 (the fetched count), file contains only the
header. -/
theorem C6_success_reports_fetched_count_witness :
    getAllSales envDel fmt0 "UTC" = .completed [saleDel].length (headerLine :: []) :=
  C6_success_reports_fetched_count envDel fmt0 "UTC" [] [] [] [] [saleDel] []
    rfl rfl rfl rfl rfl rfl rfl rfl (by with_unfolding_all decide)

theorem lookupRegister_match {sid : String} {r : Register} {nm : String}
    (hr : r.id = some sid) (hnm : r.name = some nm) :
    ∀ (pre post : List Register) (acc : String),
      (∀ r' ∈ pre, ∃ i, r'.id = some i ∧ i ≠ sid) →
      lookupRegister (some sid) (pre ++ r :: post) acc =
        some (if r.deletedAt.isSome then nm ++ " (Deleted)" else nm) := by
  intro pre
  induction pre with
  | nil =>
    intro post acc _
    simp [lookupRegister, hr, hnm]
  | cons p pre ih =>
    intro post acc hpre
    obtain ⟨i, hi, hne⟩ := hpre p (List.mem_cons_self p pre)
    have hrest := ih post "<Deleted Register>" (fun r' h' => hpre r' (List.mem_cons_of_mem p h'))
    simp [lookupRegister, hi, Ne.symm hne, hrest]

theorem lookupRegister_nomatch {sid : String} :
    ∀ (regs : List Register), regs ≠ [] →
      (∀ r ∈ regs, ∃ i, r.id = some i ∧ i ≠ sid) →
      ∀ acc, lookupRegister (some sid) regs acc = some "<Deleted Register>" := by
  intro regs
  induction regs with
  | nil => intro h; exact absurd rfl h
  | cons p rest ih =>
    intro _ hall acc
    obtain ⟨i, hi, hne⟩ := hall p (List.mem_cons_self p rest)
    rw [lookupRegister, Option.some_bind, hi, Option.some_bind, if_neg (Ne.symm hne)]
    rcases rest with _ | ⟨q, rest'⟩
    · rfl
    · exact ih (by simp) (fun r h => hall r (List.mem_cons_of_mem p h)) "<Deleted Register>"

theorem lookupCustomer_match {sid : String} {c : Customer} (hc : c.id = some sid) :
    ∀ (pre post : List Customer),
      (∀ c' ∈ pre, ∃ i, c'.id = some i ∧ i ≠ sid) →
      lookupCustomer (some sid) (pre ++ c :: post) =
        some (String.intercalate " " (c.firstName.toList ++ c.lastName.toList),
              c.code.getD "", c.companyName.getD "") := by
  intro pre
  induction pre with
  | nil => intro post _; simp [lookupCustomer, hc]
  | cons p pre ih =>
    intro post hpre
    obtain ⟨i, hi, hne⟩ := hpre p (List.mem_cons_self p pre)
    have hrest := ih post (fun c' h' => hpre c' (List.mem_cons_of_mem p h'))
    simp [lookupCustomer, hi, hne, hrest]

/-- C5 amended: the Register column (index 16) of the emitted summary record
equals the result of the register scan, and the scan resolves to: the
matching register's name, with " (Deleted)" appended when that register is
marked deleted; the literal "<Deleted Register>" when the register list is
nonempty and contains no match; but the EMPTY string (not the sentinel) when
the register list is empty. -/
theorem C5_register_column (regs : List Register) (users : List User) (custs : List Customer)
    (prods : List Product) (f : String → String → String) (tz : String) (sale : Sale)
    (rs : List (List String)) (s0 : List String) (rest : List (List String))
    (hdel : sale.deletedAt = none) (hst : ¬ sale.status = some "OPEN")
    (h : saleRows regs users custs prods f tz sale = some rs)
    (hcons : rs = s0 :: rest) :
    (∃ rn, lookupRegister sale.registerID regs "" = some rn ∧ s0.get? 16 = some rn) ∧
    (∀ sid, sale.registerID = some sid →
      (∀ pre r post nm, regs = pre ++ r :: post →
        (∀ r' ∈ pre, ∃ i, r'.id = some i ∧ i ≠ sid) →
        r.id = some sid → r.name = some nm →
        lookupRegister sale.registerID regs "" =
          some (if r.deletedAt.isSome then nm ++ " (Deleted)" else nm)) ∧
      ((∀ r ∈ regs, ∃ i, r.id = some i ∧ i ≠ sid) → regs ≠ [] →
        lookupRegister sale.registerID regs "" = some "<Deleted Register>") ∧
      (regs = [] → lookupRegister sale.registerID regs "" = some "")) := by
  obtain ⟨sd, cinfo, items, acc, tp, tt, tl, rn, un, pays, lrs, prs, hsd, hlen19,
    hcinfo, hitems, hacc, htp, htt, htl, hreg, huser, hpays, hlrs, hprs, hrs_eq⟩ :=
    saleRows_eq_some hdel hst h
  rw [hcons] at hrs_eq
  have hs0 : s0 = summaryRow (dateStrOf f sd tz) (timeStrOf f sd tz)
      (sale.invoiceNumber.getD "") cinfo (noteStrOf sale.note) acc tp tt tl rn un sale.status :=
    (List.cons.injEq _ _ _ _ ▸ hrs_eq).1
  constructor
  · exact ⟨rn, hreg, by rw [hs0]; rfl⟩
  · intro sid hsid
    refine ⟨?_, ?_, ?_⟩
    · intro pre r post nm hsplit hpre hrid hrnm
      rw [hsid, hsplit]
      exact lookupRegister_match hrid hrnm pre post "" hpre
    · intro hall hne
      rw [hsid]
      exact lookupRegister_nomatch regs hne hall ""
    · intro hempty
      rw [hsid, hempty]
      rfl

/-- C5 counterexample: with an EMPTY register list (so no register matches
the sale's RegisterID) the Register column of the emitted summary row is the
empty string, not the literal "<Deleted Register>" the claim requires. -/
theorem C5_register_counterexample :
    ((saleRows [] [user0] [cust0] [prod0] fmt0 "UTC" sale0).bind
      (fun rs => rs.head?.bind (fun r => r.get? 16))) = some "" ∧
    ¬ ((saleRows [] [user0] [cust0] [prod0] fmt0 "UTC" sale0).bind
      (fun rs => rs.head?.bind (fun r => r.get? 16))) = some "<Deleted Register>" := by
  constructor <;> with_unfolding_all decide

/-- C5 witness: on the concrete fixtures the match case applies: the summary
row's Register column carries the matched register's name "Main". -/
theorem C5_register_column_witness :
    ∃ rn, lookupRegister sale0.registerID [reg0] "" = some rn ∧ srow0.get? 16 = some rn :=
  (C5_register_column [reg0] [user0] [cust0] [prod0] fmt0 "UTC" sale0 rows0 srow0
    [lrow0, prow0] rfl (by decide) (by with_unfolding_all decide) rfl).1

/-- C9: when the sale's CustomerID matches a customer (the first match in
list order), the emitted summary record's Customer Name column (index 6) is
the customer's present first/last names joined with a single space — absent
parts omitted, with no separator artifact when one part is missing. -/
theorem C9_customer_name (regs : List Register) (users : List User) (custs : List Customer)
    (prods : List Product) (f : String → String → String) (tz : String) (sale : Sale)
    (rs : List (List String)) (s0 : List String) (rest : List (List String))
    (sid : String) (pre : List Customer) (c : Customer) (post : List Customer)
    (hdel : sale.deletedAt = none) (hst : ¬ sale.status = some "OPEN")
    (h : saleRows regs users custs prods f tz sale = some rs)
    (hcons : rs = s0 :: rest)
    (hsid : sale.customerID = some sid)
    (hsplit : custs = pre ++ c :: post)
    (hpre : ∀ c' ∈ pre, ∃ i, c'.id = some i ∧ i ≠ sid)
    (hcid : c.id = some sid) :
    s0.get? 6 = some (String.intercalate " " (c.firstName.toList ++ c.lastName.toList)) := by
  obtain ⟨sd, cinfo, items, acc, tp, tt, tl, rn, un, pays, lrs, prs, hsd, hlen19,
    hcinfo, hitems, hacc, htp, htt, htl, hreg, huser, hpays, hlrs, hprs, hrs_eq⟩ :=
    saleRows_eq_some hdel hst h
  rw [hcons] at hrs_eq
  have hs0 : s0 = summaryRow (dateStrOf f sd tz) (timeStrOf f sd tz)
      (sale.invoiceNumber.getD "") cinfo (noteStrOf sale.note) acc tp tt tl rn un sale.status :=
    (List.cons.injEq _ _ _ _ ▸ hrs_eq).1
  rw [hsid, hsplit, lookupCustomer_match hcid pre post hpre, Option.some.injEq] at hcinfo
  rw [hs0, ← hcinfo]
  rfl

/-- C9 witness: the concrete customer has first name "Jane" and no last
name; the Customer Name column is exactly "Jane", with no trailing space. -/
theorem C9_customer_name_witness : srow0.get? 6 = some "Jane" :=
  (C9_customer_name [reg0] [user0] [cust0] [prod0] fmt0 "UTC" sale0 rows0 srow0
    [lrow0, prow0] "cust1" [] cust0 [] rfl (by decide) (by with_unfolding_all decide)
    rfl rfl rfl (by intro c' hc'; exact absurd hc' (List.not_mem_nil c')) rfl).trans
    (by decide)

/-- C8: the record emitted for the j-th line item of an included sale sits at
index j+1 of the sale's block, carries line type "Sale Line", and its Total
column (index 13) is `fmtF ((price + tax) * quantity)`, the shortest plain
decimal rendering of (price + tax) × quantity. -/
theorem C8_line_total (regs : List Register) (users : List User) (custs : List Customer)
    (prods : List Product) (f : String → String → String) (tz : String) (sale : Sale)
    (rs : List (List String)) (items : List LineItem) (j : ℕ) (li : LineItem)
    (p t q : ℚ)
    (hdel : sale.deletedAt = none) (hst : ¬ sale.status = some "OPEN")
    (h : saleRows regs users custs prods f tz sale = some rs)
    (hitems : sale.lineItems = some items)
    (hj : items.get? j = some li)
    (hp : li.price = some p) (ht : li.tax = some t) (hq : li.quantity = some q) :
    ∃ r, rs.get? (j + 1) = some r ∧ r.get? 3 = some "Sale Line" ∧
      r.get? 13 = some (fmtF ((p + t) * q)) := by
  obtain ⟨sd, cinfo, items0, acc, tp, tt, tl, rn, un, pays, lrs, prs, hsd, hlen19,
    hcinfo, hitems0, hacc, htp, htt, htl, hreg, huser, hpays, hlrs, hprs, hrs_eq⟩ :=
    saleRows_eq_some hdel hst h
  rw [hitems, Option.some.injEq] at hitems0
  subst hitems0
  obtain ⟨hlen, hidx⟩ := optMapList_eq_some hlrs
  obtain ⟨r, hrget, hrow⟩ := hidx j li hj
  obtain ⟨q2, p2, t2, d2, l2, ps, hq2, hp2, ht2, hd2, hl2, hps, hr_eq⟩ := lineRow_eq_some hrow
  rw [hp, Option.some.injEq] at hp2
  subst hp2
  rw [ht, Option.some.injEq] at ht2
  subst ht2
  rw [hq, Option.some.injEq] at hq2
  subst hq2
  obtain ⟨hjlt0, -⟩ := List.get?_eq_some.mp hj
  have hjlt : j < lrs.length := by rw [hlen]; exact hjlt0
  refine ⟨r, ?_, ?_, ?_⟩
  · rw [hrs_eq, List.get?_cons_succ, List.get?_append hjlt]
    exact hrget
  · rw [hr_eq]
    rfl
  · rw [hr_eq]
    rfl

/-- C8 witness: a line item with price 10, tax 1, quantity 2 yields the
Total string "22". -/
theorem C8_line_total_witness :
    ∃ r, rows0.get? 1 = some r ∧ r.get? 3 = some "Sale Line" ∧ r.get? 13 = some "22" := by
  obtain ⟨r, h1, h2, h3⟩ := C8_line_total [reg0] [user0] [cust0] [prod0] fmt0 "UTC" sale0
    rows0 [li0] 0 li0 10 1 2 rfl (by decide) (by with_unfolding_all decide) rfl rfl rfl rfl rfl
  exact ⟨r, h1, h2, h3.trans (by with_unfolding_all decide)⟩

theorem timeStrOf_eq (f : String → String → String) (sd tz : String) (d t rest : List Char)
    (hfmt : (f sd tz).data = d ++ ' ' :: (t ++ rest))
    (hd : d.length = 10) (ht : t.length = 8) :
    timeStrOf f sd tz = String.mk (' ' :: t) := by
  unfold timeStrOf dtChars
  rw [hfmt]
  have h1 : d ++ ' ' :: (t ++ rest) = (d ++ ' ' :: t) ++ rest := by simp
  have h19 : (d ++ ' ' :: t).length = 19 := by simp [hd, ht]
  rw [h1, List.take_left' h19, List.drop_left' hd,
    show (9 : ℕ) = (' ' :: t).length from by simp [ht], List.take_length]

/-- C10: every record emitted for a sale — summary, line-item and payment
alike — has a Sale Time column (index 1) equal to the 9-character slice of
the formatted local timestamp beginning at the separating space: a leading
space followed by HH:MM:SS. -/
theorem C10_time_column (regs : List Register) (users : List User) (custs : List Customer)
    (prods : List Product) (f : String → String → String) (tz : String) (sale : Sale)
    (rs : List (List String)) (sd : String) (d t rest : List Char)
    (hsd : sale.saleDate = some sd)
    (hfmt : (f sd tz).data = d ++ ' ' :: (t ++ rest))
    (hd : d.length = 10) (htlen : t.length = 8)
    (h : saleRows regs users custs prods f tz sale = some rs) :
    ∀ r ∈ rs, r.get? 1 = some (String.mk (' ' :: t)) := by
  rcases hdelc : sale.deletedAt with _ | dd
  case some =>
    have h0 : saleRows regs users custs prods f tz sale = some [] :=
      saleRows_skipped (Or.inl ⟨dd, hdelc⟩)
    rw [h0, Option.some.injEq] at h
    rw [← h]
    intro r hr
    exact absurd hr (List.not_mem_nil r)
  case none =>
    by_cases hst : sale.status = some "OPEN"
    · have h0 : saleRows regs users custs prods f tz sale = some [] :=
        saleRows_skipped (Or.inr hst)
      rw [h0, Option.some.injEq] at h
      rw [← h]
      intro r hr
      exact absurd hr (List.not_mem_nil r)
    · obtain ⟨sd0, cinfo, items, acc, tp, tt, tl, rn, un, pays, lrs, prs, hsd0, hlen19,
        hcinfo, hitems, hacc, htp, htt, htl2, hreg, huser, hpays, hlrs, hprs, hrs_eq⟩ :=
        saleRows_eq_some hdelc hst h
      rw [hsd, Option.some.injEq] at hsd0
      subst hsd0
      have hts := timeStrOf_eq f sd tz d t rest hfmt hd htlen
      intro r hr
      rw [hrs_eq] at hr
      rcases List.mem_cons.mp hr with h1 | h1
      · subst h1
        rw [← hts]
        rfl
      · rcases List.mem_append.mp h1 with h2 | h2
        · obtain ⟨a, -, ha⟩ := optMapList_mem hlrs r h2
          obtain ⟨q2, p2, t2, d2, l2, ps, -, -, -, -, -, -, hr_eq⟩ := lineRow_eq_some ha
          rw [hr_eq, ← hts]
          rfl
        · obtain ⟨a, -, ha⟩ := optMapList_mem hprs r h2
          obtain ⟨amt, nm, -, -, hr_eq⟩ := paymentRow_eq_some ha
          rw [hr_eq, ← hts]
          rfl

/-- C10 witness: with the formatter output "2015-07-01 07:03:22 +0000 UTC",
all three concrete records carry the Sale Time " 07:03:22". -/
theorem C10_time_column_witness :
    srow0.get? 1 = some " 07:03:22" ∧ lrow0.get? 1 = some " 07:03:22" ∧
    prow0.get? 1 = some " 07:03:22" := by
  have h := C10_time_column [reg0] [user0] [cust0] [prod0] fmt0 "UTC" sale0 rows0
    "2015-07-01T07:03:22Z" ("2015-07-01".data) ("07:03:22".data) (" +0000 UTC".data)
    rfl (by decide) (by decide) (by decide) (by with_unfolding_all decide)
  exact ⟨(h srow0 (by simp [rows0])).trans (by decide),
         (h lrow0 (by simp [rows0])).trans (by decide),
         (h prow0 (by simp [rows0])).trans (by decide)⟩

theorem lookupCustomer_isSome {customerID : Option String} (hid : customerID.isSome) :
    ∀ {custs : List Customer}, (∀ c ∈ custs, c.id.isSome) →
      (lookupCustomer customerID custs).isSome := by
  intro custs
  induction custs with
  | nil => intro _; simp [lookupCustomer]
  | cons c rest ih =>
    intro hall
    obtain ⟨cid, hcid⟩ := Option.isSome_iff_exists.mp (hall c (List.mem_cons_self c rest))
    obtain ⟨sid, hsid⟩ := Option.isSome_iff_exists.mp hid
    subst hsid
    have hrec := ih (fun c' h' => hall c' (List.mem_cons_of_mem c h'))
    rw [lookupCustomer, hcid, Option.some_bind, Option.some_bind]
    by_cases he : cid = sid
    · rw [if_pos he]; rfl
    · rw [if_neg he]; exact hrec

theorem fragScan_isSome {productID : Option String} (hid : productID.isSome) (q : ℚ) :
    ∀ {prods : List Product}, (∀ p ∈ prods, p.id.isSome ∧ p.name.isSome) →
      (fragScan productID q prods).isSome := by
  intro prods
  induction prods with
  | nil => intro _; simp [fragScan]
  | cons p rest ih =>
    intro hall
    obtain ⟨hpid, hpnm⟩ := hall p (List.mem_cons_self p rest)
    obtain ⟨pid, hp1⟩ := Option.isSome_iff_exists.mp hpid
    obtain ⟨nm, hp2⟩ := Option.isSome_iff_exists.mp hpnm
    obtain ⟨lid, hl⟩ := Option.isSome_iff_exists.mp hid
    subst hl
    have hrec := ih (fun p' h' => hall p' (List.mem_cons_of_mem p h'))
    rw [fragScan, hp1, Option.some_bind, Option.some_bind]
    by_cases he : pid = lid
    · rw [if_pos he, hp2, Option.some_bind]; rfl
    · rw [if_neg he]; exact hrec

theorem summaryScan_isSome {prods : List Product}
    (hprods : ∀ p ∈ prods, p.id.isSome ∧ p.name.isSome) :
    ∀ {items : List LineItem},
      (∀ li ∈ items, li.quantity.isSome ∧ li.discountTotal.isSome ∧ li.productID.isSome) →
      ∀ tq td acc, (summaryScan prods items tq td acc).isSome := by
  intro items
  induction items with
  | nil => intro _ tq td acc; simp [summaryScan]
  | cons li rest ih =>
    intro hall tq td acc
    obtain ⟨h1, h2, h3⟩ := hall li (List.mem_cons_self li rest)
    obtain ⟨q, hq⟩ := Option.isSome_iff_exists.mp h1
    obtain ⟨dd, hdd⟩ := Option.isSome_iff_exists.mp h2
    obtain ⟨fr, hfr⟩ := Option.isSome_iff_exists.mp (fragScan_isSome h3 q hprods)
    rw [summaryScan, hq, Option.some_bind, hdd, Option.some_bind, hfr, Option.some_bind]
    exact ih (fun li' h' => hall li' (List.mem_cons_of_mem li h')) _ _ _

theorem lookupRegister_isSome {registerID : Option String} (hid : registerID.isSome) :
    ∀ {regs : List Register}, (∀ r ∈ regs, r.id.isSome ∧ r.name.isSome) →
      ∀ acc, (lookupRegister registerID regs acc).isSome := by
  intro regs
  induction regs with
  | nil => intro _ acc; simp [lookupRegister]
  | cons r rest ih =>
    intro hall acc
    obtain ⟨h1, h2⟩ := hall r (List.mem_cons_self r rest)
    obtain ⟨rid, hrid⟩ := Option.isSome_iff_exists.mp h1
    obtain ⟨nm, hnm⟩ := Option.isSome_iff_exists.mp h2
    obtain ⟨sid, hsid⟩ := Option.isSome_iff_exists.mp hid
    subst hsid
    rw [lookupRegister, Option.some_bind, hrid, Option.some_bind]
    by_cases he : sid = rid
    · rw [if_pos he, hnm, Option.some_bind]; rfl
    · rw [if_neg he]; exact ih (fun r' h' => hall r' (List.mem_cons_of_mem r h')) _

theorem lookupUser_isSome :
    ∀ (userID : Option String) (users : List User),
      (∀ u ∈ users, u.id.isSome ∧ u.displayName.isSome) →
      (lookupUser userID users).isSome := by
  intro userID users
  induction users with
  | nil => intro _; rcases userID with _ | sid <;> simp [lookupUser]
  | cons u rest ih =>
    intro hall
    rcases userID with _ | sid
    · simp [lookupUser]
    · obtain ⟨h1, h2⟩ := hall u (List.mem_cons_self u rest)
      obtain ⟨uid, huid⟩ := Option.isSome_iff_exists.mp h1
      rw [lookupUser, huid, Option.some_bind]
      by_cases he : sid = uid
      · rw [if_pos he]; exact h2
      · rw [if_neg he]; exact ih (fun u' h' => hall u' (List.mem_cons_of_mem u h'))

theorem lookupProductVariant_isSome {productID : Option String} (hid : productID.isSome) :
    ∀ {prods : List Product},
      (∀ p ∈ prods, p.id.isSome ∧ p.variantName.isSome ∧ p.sku.isSome) →
      ∀ nm sk, (lookupProductVariant productID prods nm sk).isSome := by
  intro prods
  induction prods with
  | nil => intro _ nm sk; simp [lookupProductVariant]
  | cons p rest ih =>
    intro hall nm sk
    obtain ⟨h1, h2, h3⟩ := hall p (List.mem_cons_self p rest)
    obtain ⟨pid, hp1⟩ := Option.isSome_iff_exists.mp h1
    obtain ⟨vn, hp2⟩ := Option.isSome_iff_exists.mp h2
    obtain ⟨sk2, hp3⟩ := Option.isSome_iff_exists.mp h3
    obtain ⟨lid, hl⟩ := Option.isSome_iff_exists.mp hid
    subst hl
    have hrec := ih (fun p' h' => hall p' (List.mem_cons_of_mem p h'))
    rw [lookupProductVariant, hp1, Option.some_bind, Option.some_bind]
    by_cases he : pid = lid
    · rw [if_pos he, hp2, Option.some_bind, hp3, Option.some_bind]; exact hrec _ _
    · rw [if_neg he]; exact hrec _ _

theorem lineRow_isSome {prods : List Product} {ds ts : String} {li : LineItem}
    (hq : li.quantity.isSome) (hp : li.price.isSome) (ht : li.tax.isSome)
    (hd : li.discount.isSome) (hl : li.loyaltyValue.isSome) (hpid : li.productID.isSome)
    (hprods : ∀ p ∈ prods, p.id.isSome ∧ p.variantName.isSome ∧ p.sku.isSome) :
    (lineRow prods ds ts li).isSome := by
  obtain ⟨q, hq'⟩ := Option.isSome_iff_exists.mp hq
  obtain ⟨p, hp'⟩ := Option.isSome_iff_exists.mp hp
  obtain ⟨t, ht'⟩ := Option.isSome_iff_exists.mp ht
  obtain ⟨d, hd'⟩ := Option.isSome_iff_exists.mp hd
  obtain ⟨l, hl'⟩ := Option.isSome_iff_exists.mp hl
  obtain ⟨ps, hps'⟩ := Option.isSome_iff_exists.mp (lookupProductVariant_isSome hpid hprods "" "")
  simp [lineRow, hq', hp', ht', hd', hl', hps']

theorem paymentRow_isSome {ds ts : String} {pm : Payment}
    (ha : pm.amount.isSome) (hn : pm.name.isSome) : (paymentRow ds ts pm).isSome := by
  obtain ⟨amt, ha'⟩ := Option.isSome_iff_exists.mp ha
  obtain ⟨nm, hn'⟩ := Option.isSome_iff_exists.mp hn
  simp [paymentRow, ha', hn']

theorem saleRows_isSome (regs : List Register) (users : List User) (custs : List Customer)
    (prods : List Product) (f : String → String → String) (tz : String) (sale : Sale)
    (hc : sale.deletedAt = none → ¬ sale.status = some "OPEN" →
      SaleComplete custs regs users prods f tz sale) :
    (saleRows regs users custs prods f tz sale).isSome := by
  rcases hdel : sale.deletedAt with _ | dd
  case some => simp [saleRows_skipped (Or.inl ⟨dd, hdel⟩)]
  case none =>
    by_cases hst : sale.status = some "OPEN"
    · simp [saleRows_skipped (Or.inr hst)]
    · obtain ⟨⟨sd, hsd, hlen⟩, hcid, hcusts, ⟨items, hitems, hitemsall⟩, hprods,
        htp, htt, htl, hrid, hregs, husers, ⟨pays, hpays, hpaysall⟩⟩ := hc hdel hst
      unfold saleRows
      rw [hdel]
      simp only [Option.isSome_none, Bool.false_eq_true, if_false, if_neg hst]
      rw [hsd, Option.some_bind, if_neg (Nat.not_lt.mpr hlen)]
      obtain ⟨cinfo, hcinfo⟩ := Option.isSome_iff_exists.mp (lookupCustomer_isSome hcid hcusts)
      rw [hcinfo, Option.some_bind, hitems, Option.some_bind]
      obtain ⟨acc, hacc⟩ := Option.isSome_iff_exists.mp
        (summaryScan_isSome (fun p hp => ⟨(hprods p hp).1, (hprods p hp).2.1⟩)
          (fun li hli => ⟨(hitemsall li hli).1, (hitemsall li hli).2.2.2.2.2.1,
            (hitemsall li hli).2.2.2.2.2.2⟩) 0 0 [])
      rw [hacc, Option.some_bind]
      obtain ⟨tp, htp'⟩ := Option.isSome_iff_exists.mp htp
      rw [htp', Option.some_bind]
      obtain ⟨tt, htt'⟩ := Option.isSome_iff_exists.mp htt
      rw [htt', Option.some_bind]
      obtain ⟨tl, htl'⟩ := Option.isSome_iff_exists.mp htl
      rw [htl', Option.some_bind]
      obtain ⟨rn, hrn⟩ := Option.isSome_iff_exists.mp (lookupRegister_isSome hrid hregs "")
      rw [hrn, Option.some_bind]
      obtain ⟨un, hun⟩ := Option.isSome_iff_exists.mp (lookupUser_isSome sale.userID users husers)
      rw [hun, Option.some_bind, hpays, Option.some_bind]
      obtain ⟨lrs, hlrs⟩ := Option.isSome_iff_exists.mp (optMapList_isSome (fun li hli =>
        lineRow_isSome (hitemsall li hli).1 (hitemsall li hli).2.1 (hitemsall li hli).2.2.1
          (hitemsall li hli).2.2.2.1 (hitemsall li hli).2.2.2.2.1 (hitemsall li hli).2.2.2.2.2.2
          (fun p hp => ⟨(hprods p hp).1, (hprods p hp).2.2.1, (hprods p hp).2.2.2⟩)))
      rw [hlrs, Option.some_bind]
      obtain ⟨prs, hprs⟩ := Option.isSome_iff_exists.mp (optMapList_isSome (fun pm hpm =>
        paymentRow_isSome (hpaysall pm hpm).1 (hpaysall pm hpm).2))
      rw [hprs, Option.some_bind]
      rfl

/-- C1 counterexample: a sale with an absent (nil) TotalPrice — one of the
nullable numeric fields the claim covers — makes `writeReport` fail with a
nil-pointer dereference (modelled as `none`) instead of treating the field
as zero and completing. -/
theorem C1_counterexample :
    writeReport [] [] [] [] [saleNoTP] fmt0 "UTC" = none := by
  with_unfolding_all decide

/-- C1 amended: `writeReport` completes without failure when every
unconditionally dereferenced (nullable numeric and reference) field of every
included sale is present — while the nil-checked optional fields (invoice
number, note, status, user ID, customer name parts) may be absent and are
rendered blank; an absent field among quantity, discount total, total
price, total tax, total loyalty or payment amount is instead a nil-pointer
dereference, not a zero. -/
theorem C1_nullable_fields (regs : List Register) (users : List User) (custs : List Customer)
    (prods : List Product) (f : String → String → String) (tz : String) (sales : List Sale)
    (h : ∀ sale ∈ sales, sale.deletedAt = none → ¬ sale.status = some "OPEN" →
      SaleComplete custs regs users prods f tz sale) :
    (writeReport regs users custs prods sales f tz).isSome := by
  unfold writeReport
  obtain ⟨rss, hrss⟩ := Option.isSome_iff_exists.mp
    (optMapList_isSome (fun sale hs =>
      saleRows_isSome regs users custs prods f tz sale (h sale hs)))
  rw [hrss, Option.some_bind]
  rfl

/-- C1 witness: one fully populated sale plus one whose nil-checked fields
(invoice number, note, status, user ID) are all absent — writeReport still
completes. -/
theorem C1_nullable_fields_witness :
    (writeReport [reg0] [user0] [cust0] [prod0] [sale0, saleBare] fmt0 "UTC").isSome := by
  apply C1_nullable_fields
  intro sale hs hdel hst
  rcases List.mem_cons.mp hs with h1 | h1
  · subst h1
    exact ⟨⟨"2015-07-01T07:03:22Z", rfl, by decide⟩, by decide, by decide,
      ⟨[li0], rfl, by decide⟩, by decide, by decide, by decide, by decide,
      by decide, by decide, by decide,
      ⟨[{ name := some "Cash", amount := some 22 }], rfl, by decide⟩⟩
  · rcases List.mem_cons.mp h1 with h2 | h2
    · subst h2
      exact ⟨⟨"2015-07-01T07:03:22Z", rfl, by decide⟩, by decide, by decide,
        ⟨[], rfl, by decide⟩, by decide, by decide, by decide, by decide,
        by decide, by decide, by decide, ⟨[], rfl, by decide⟩⟩
    · exact absurd h2 (List.not_mem_nil sale)

theorem saleRows_row_length {regs : List Register} {users : List User} {custs : List Customer}
    {prods : List Product} {f : String → String → String} {tz : String} {sale : Sale}
    {rs : List (List String)}
    (h : saleRows regs users custs prods f tz sale = some rs) :
    ∀ r ∈ rs, r.length = 22 := by
  rcases hdel : sale.deletedAt with _ | dd
  case some =>
    rw [saleRows_skipped (Or.inl ⟨dd, hdel⟩), Option.some.injEq] at h
    rw [← h]
    intro r hr
    exact absurd hr (List.not_mem_nil r)
  case none =>
    by_cases hst : sale.status = some "OPEN"
    · rw [saleRows_skipped (Or.inr hst), Option.some.injEq] at h
      rw [← h]
      intro r hr
      exact absurd hr (List.not_mem_nil r)
    · obtain ⟨sd, cinfo, items, acc, tp, tt, tl, rn, un, pays, lrs, prs, hsd, hlen19,
        hcinfo, hitems, hacc, htp, htt, htl, hreg, huser, hpays, hlrs, hprs, hrs_eq⟩ :=
        saleRows_eq_some hdel hst h
      intro r hr
      rw [hrs_eq] at hr
      rcases List.mem_cons.mp hr with h1 | h1
      · subst h1
        rfl
      · rcases List.mem_append.mp h1 with h2 | h2
        · obtain ⟨a, -, ha⟩ := optMapList_mem hlrs r h2
          obtain ⟨q, p, t, d, l, ps, -, -, -, -, -, -, hr_eq⟩ := lineRow_eq_some ha
          rw [hr_eq]
          rfl
        · obtain ⟨a, -, ha⟩ := optMapList_mem hprs r h2
          obtain ⟨amt, nm, -, -, hr_eq⟩ := paymentRow_eq_some ha
          rw [hr_eq]
          rfl

theorem writeReport_row_length {regs : List Register} {users : List User} {custs : List Customer}
    {prods : List Product} {sales : List Sale} {f : String → String → String} {tz : String}
    {rows : List (List String)}
    (h : writeReport regs users custs prods sales f tz = some rows) :
    ∀ r ∈ rows, r.length = 22 := by
  obtain ⟨rss, hrss, hflat⟩ := writeReport_eq_some h
  intro r hr
  rw [hflat] at hr
  obtain ⟨rs, hrs_mem, hr_mem⟩ := List.mem_flatten.mp hr
  obtain ⟨sale, -, hsale⟩ := optMapList_mem hrss rs hrs_mem
  exact saleRows_row_length hsale r hr_mem

theorem isSpecial_false {c : Char} (h : isSpecial c = false) :
    c ≠ ',' ∧ c ≠ '"' ∧ c ≠ '\n' ∧ c ≠ '\r' := by
  have h' : ((¬c = ',' ∧ ¬c = '"') ∧ ¬c = '\n') ∧ ¬c = '\r' := by
    simpa [isSpecial] using h
  exact ⟨h'.1.1.1, h'.1.1.2, h'.1.2, h'.2⟩

theorem needsQuote_false_mem {f : List Char} (h : needsQuote f = false) :
    ∀ c ∈ f, isSpecial c = false := by
  rcases f with _ | ⟨a, f'⟩
  · intro c hc
    exact absurd hc (List.not_mem_nil c)
  · have hany : (a :: f').any isSpecial = false := by
      rw [needsQuote] at h
      rcases Bool.or_eq_false_iff.mp h with ⟨h1, -⟩
      exact (Bool.or_eq_false_iff.mp h1).1
    intro c hc
    rcases Bool.eq_false_or_eq_true (isSpecial c) with h2 | h2
    · exact absurd (List.any_eq_true.mpr ⟨c, hc, h2⟩) (by rw [hany]; decide)
    · exact h2

theorem escapeQ_parse {r : List Char} (hr : ∀ c cs, r = c :: cs → c ≠ '"') :
    ∀ (f : List Char), parseQBody (escapeQ f ++ '"' :: r) = some (f, r) := by
  intro f
  induction f with
  | nil =>
    rcases r with _ | ⟨c, cs⟩
    · rfl
    · have hc := hr c cs rfl
      simp [escapeQ, parseQBody, parseQAux, hc]
  | cons a f ih =>
    rw [parseQBody] at ih
    by_cases ha : a = '"'
    · subst ha
      simp [escapeQ, parseQBody, parseQAux, ih]
    · simp [escapeQ, parseQBody, parseQAux, ha, ih]

theorem parseUField_eq {f : List Char} (hf : ∀ c ∈ f, ¬(c = ',' ∨ c = '\n'))
    {d : Char} (hd : d = ',' ∨ d = '\n') (r : List Char) :
    parseUField (f ++ d :: r) = (f, d :: r) := by
  induction f with
  | nil => simp [parseUField, hd]
  | cons a f ih =>
    have ha := hf a (List.mem_cons_self a f)
    simp [parseUField, ha, ih (fun c hc => hf c (List.mem_cons_of_mem a hc))]

theorem parseField_encodeField {f r : List Char} {d : Char} (hd : d = ',' ∨ d = '\n') :
    parseField (encodeField f ++ d :: r) = some (f, d :: r) := by
  have hdq : d ≠ '"' := by rcases hd with h | h <;> (subst h; decide)
  unfold encodeField
  by_cases hq : needsQuote f
  · rw [if_pos hq]
    have hshape : ('"' :: (escapeQ f ++ ['"'])) ++ d :: r =
        '"' :: (escapeQ f ++ '"' :: d :: r) := by simp
    rw [hshape]
    show (if ('"' : Char) = '"' then parseQBody (escapeQ f ++ '"' :: d :: r)
          else some (parseUField ('"' :: (escapeQ f ++ '"' :: d :: r)))) = some (f, d :: r)
    rw [if_pos rfl]
    exact escapeQ_parse (fun c cs hcc => by injection hcc with h1 _; exact h1 ▸ hdq) f
  · rw [if_neg hq]
    have hmem := needsQuote_false_mem (Bool.eq_false_iff.mpr hq)
    rcases f with _ | ⟨a, f'⟩
    · show (if d = '"' then parseQBody r else some (parseUField (d :: r))) = some ([], d :: r)
      rw [if_neg hdq]
      rw [show parseUField (d :: r) = ([], d :: r) from by simp [parseUField, hd]]
    · have ha := isSpecial_false (hmem a (List.mem_cons_self a f'))
      have hshape : (a :: f') ++ d :: r = a :: (f' ++ d :: r) := by simp
      rw [hshape]
      show (if a = '"' then parseQBody (f' ++ d :: r)
            else some (parseUField (a :: (f' ++ d :: r)))) = some (a :: f', d :: r)
      rw [if_neg ha.2.1]
      have hu : parseUField ((a :: f') ++ d :: r) = (a :: f', d :: r) :=
        parseUField_eq (fun c hc => by
          have hcs := isSpecial_false (hmem c hc)
          rintro (h1 | h1)
          · exact hcs.1 h1
          · exact hcs.2.2.1 h1) hd r
      rw [← hu]
      rfl

theorem parseRecAux_encode :
    ∀ (fs : List (List Char)) (f0 : List Char) (rest : List Char) (fuel : ℕ),
      fs.length < fuel →
      parseRecAux fuel (joinComma ((f0 :: fs).map encodeField) ++ '\n' :: rest) =
        some (f0 :: fs, rest) := by
  intro fs
  induction fs with
  | nil =>
    intro f0 rest fuel hfuel
    obtain ⟨fuel, rfl⟩ : ∃ k, fuel = k + 1 := ⟨fuel - 1, by omega⟩
    show parseRecAux (fuel + 1) (encodeField f0 ++ '\n' :: rest) = some ([f0], rest)
    rw [parseRecAux, parseField_encodeField (Or.inr rfl), Option.some_bind]
    rfl
  | cons f1 fs ih =>
    intro f0 rest fuel hfuel
    obtain ⟨fuel, rfl⟩ : ∃ k, fuel = k + 1 := ⟨fuel - 1, by omega⟩
    have hshape : joinComma ((f0 :: f1 :: fs).map encodeField) ++ '\n' :: rest =
        encodeField f0 ++ ',' :: (joinComma ((f1 :: fs).map encodeField) ++ '\n' :: rest) := by
      simp [joinComma]
    rw [hshape, parseRecAux, parseField_encodeField (Or.inl rfl), Option.some_bind]
    show (parseRecAux fuel (joinComma ((f1 :: fs).map encodeField) ++ '\n' :: rest)).map
        (fun p => (f0 :: p.1, p.2)) = some (f0 :: f1 :: fs, rest)
    rw [ih f1 rest fuel (by simp only [List.length_cons] at hfuel; omega)]
    rfl

theorem length_joinComma_encode : ∀ fs : List (List Char),
    fs.length ≤ (joinComma (fs.map encodeField)).length + 1 := by
  intro fs
  induction fs with
  | nil => simp [joinComma]
  | cons f fs ih =>
    rcases fs with _ | ⟨g, fs'⟩
    · simp [joinComma]
    · simp only [List.map_cons, joinComma, List.length_append, List.length_cons] at ih ⊢
      omega

theorem length_flatten_encode : ∀ rows : List (List (List Char)),
    rows.length ≤ ((rows.map encodeRecordCSV).flatten).length := by
  intro rows
  induction rows with
  | nil => simp
  | cons r rows ih =>
    have h1 : 1 ≤ (encodeRecordCSV r).length := by simp [encodeRecordCSV]
    simp only [List.map_cons, List.flatten_cons, List.length_append, List.length_cons]
    omega

theorem parseCSVAux_encode :
    ∀ (rows : List (List (List Char))) (fuel : ℕ), rows.length ≤ fuel →
      (∀ r ∈ rows, r ≠ []) →
      parseCSVAux fuel ((rows.map encodeRecordCSV).flatten) = some rows := by
  intro rows
  induction rows with
  | nil =>
    intro fuel _ _
    simp [parseCSVAux]
  | cons r rows ih =>
    intro fuel hfuel hne
    obtain ⟨fuel, rfl⟩ : ∃ k, fuel = k + 1 :=
      ⟨fuel - 1, by simp only [List.length_cons] at hfuel; omega⟩
    obtain ⟨f0, fs, rfl⟩ : ∃ f0 fs, r = f0 :: fs := by
      rcases r with _ | ⟨f0, fs⟩
      · exact absurd rfl (hne [] (List.mem_cons_self _ _))
      · exact ⟨f0, fs, rfl⟩
    have hstream : (((f0 :: fs) :: rows).map encodeRecordCSV).flatten =
        joinComma ((f0 :: fs).map encodeField) ++
          '\n' :: (rows.map encodeRecordCSV).flatten := by
      simp [encodeRecordCSV]
    rcases hJ : joinComma ((f0 :: fs).map encodeField) ++
        '\n' :: (rows.map encodeRecordCSV).flatten with _ | ⟨c, cs⟩
    · exact absurd hJ (by simp)
    · rw [hstream, hJ, parseCSVAux, ← hJ]
      have h1 := length_joinComma_encode (f0 :: fs)
      have hflen : fs.length <
          (joinComma ((f0 :: fs).map encodeField) ++
            '\n' :: (rows.map encodeRecordCSV).flatten).length + 1 := by
        simp only [List.length_cons, List.length_append] at h1 ⊢
        omega
      rw [parseRecAux_encode fs f0 ((rows.map encodeRecordCSV).flatten) _ hflen,
        Option.some_bind]
      show (parseCSVAux fuel ((rows.map encodeRecordCSV).flatten)).map
          (fun rws => (f0 :: fs) :: rws) = some ((f0 :: fs) :: rows)
      rw [ih fuel (by simp at hfuel ⊢; omega)
        (fun r' h' => hne r' (List.mem_cons_of_mem _ h'))]
      rfl

theorem parseCSV_encodeCSV (rows : List (List (List Char)))
    (hne : ∀ r ∈ rows, r ≠ []) :
    parseCSV (encodeCSV rows) = some rows := by
  unfold parseCSV encodeCSV
  exact parseCSVAux_encode rows _ (by
    have := length_flatten_encode rows
    omega) hne

theorem parseCSVFile_encodeCSVFile (rows : List (List String))
    (hne : ∀ r ∈ rows, r ≠ []) :
    parseCSVFile (encodeCSVFile rows) = some rows := by
  unfold parseCSVFile encodeCSVFile
  rw [parseCSV_encodeCSV]
  · show some (((rows.map fun r => r.map String.data)).map fun r => r.map String.mk) = some rows
    rw [Option.some.injEq, List.map_map]
    have hcomp : ∀ r : List String, (r.map String.data).map String.mk = r := by
      intro r
      induction r with
      | nil => rfl
      | cons s r ihr => simp [ihr]
    calc (rows.map ((fun r : List (List Char) => r.map String.mk) ∘
            (fun r : List String => r.map String.data)))
        = rows.map (fun r => (r.map String.data).map String.mk) := rfl
      _ = rows.map id := by
          apply List.map_congr_left
          intro r _
          exact hcomp r
      _ = rows := List.map_id rows
  · intro r hr
    obtain ⟨r0, hr0, hr0eq⟩ := List.mem_map.mp hr
    rw [← hr0eq]
    intro hnil
    rw [List.map_eq_nil_iff] at hnil
    exact hne r0 hr0 (by rw [hnil])

/-- C7: the header produced by `createReport` names 20 columns, every data
record produced by `writeReport` has 22 columns, and re-parsing the produced
CSV file (header plus data records, written by the RFC 4180 CSV writer
model) reconstructs exactly the same rows — the same column count and
ordering for every row type. -/
theorem C7_roundtrip (regs : List Register) (users : List User) (custs : List Customer)
    (prods : List Product) (sales : List Sale) (f : String → String → String) (tz : String)
    (rows : List (List String))
    (h : writeReport regs users custs prods sales f tz = some rows) :
    headerLine.length = 20 ∧ (∀ r ∈ rows, r.length = 22) ∧
    parseCSVFile (encodeCSVFile (headerLine :: rows)) = some (headerLine :: rows) := by
  refine ⟨rfl, writeReport_row_length h, ?_⟩
  apply parseCSVFile_encodeCSVFile
  intro r hr
  rcases List.mem_cons.mp hr with h1 | h1
  · subst h1
    simp [headerLine]
  · have h22 := writeReport_row_length h r h1
    intro hnil
    rw [hnil] at h22
    simp at h22

/-- C7 witness: the roundtrip theorem instantiated on the concrete one-sale
report (header plus the three records of `sale0`). -/
theorem C7_roundtrip_witness :
    headerLine.length = 20 ∧ (∀ r ∈ rows0, r.length = 22) ∧
    parseCSVFile (encodeCSVFile (headerLine :: rows0)) = some (headerLine :: rows0) :=
  C7_roundtrip [reg0] [user0] [cust0] [prod0] [sale0] fmt0 "UTC" rows0
    (by with_unfolding_all decide)
